import Mathlib

/-!
Verification development for the boleto-automation-system repository.

The definitions below are shallow embeddings of the Python code in
`final_working_boleto_processor.py` and `enhanced_production_processor.py`:
pure string manipulation is modelled over `List Char` (Python `str` methods
such as `strip`, `upper`, `replace` and regex digit filtering are modelled
character by character, with ASCII case folding standing in for `str.upper`),
stateful components (the processed-record tracker, the resume checkpoint and
the orchestrator loop) are modelled by explicit state passing, where the
persisted JSON file is part of the state, and timestamps are modelled as
integers.  Fallible operations return `Option`.
-/

/-! ## Python string helpers -/

/-- Model of Python `str.strip()`: removes leading and trailing whitespace. -/
def stripChars (l : List Char) : List Char :=
  ((l.dropWhile Char.isWhitespace).reverse.dropWhile Char.isWhitespace).reverse

/-- Model of Python `str.strip()` on `String`. -/
def pyStrip (s : String) : String :=
  String.mk (stripChars s.toList)

/-- Model of `re.sub(r"\D", "", s)`: keep only decimal digits. -/
def digitsOnly (l : List Char) : List Char :=
  l.filter Char.isDigit

/-- Model of Python `str.upper()` (ASCII case folding). -/
def upperChars (l : List Char) : List Char :=
  l.map Char.toUpper

/-- Model of the Python `in` operator on strings: substring containment. -/
def containsSub (needle : List Char) : List Char → Bool
  | [] => needle.isEmpty
  | c :: rest => needle.isPrefixOf (c :: rest) || containsSub needle rest

/-- Model of Python `str.replace(",", ".")` (single-character pattern). -/
def commaToPeriod (s : String) : String :=
  String.mk (s.toList.map fun c => if c = ',' then '.' else c)

/-! ## Quota sanitization (`FinalWorkingProcessor.sanitize_cota`, lines 573-588)

The source takes the segment of the raw value before the first hyphen and
strips non-digits from it; when that yields no digits at all, it falls back
to stripping non-digits from the whole raw value. -/

/-- Model of `FinalWorkingProcessor.sanitize_cota` (string-input case;
the `None`/float preprocessing branches only convert the input to a string). -/
def sanitize_cota (raw : String) : String :=
  let primary := raw.toList.takeWhile (fun c => c != '-')
  let digits := digitsOnly primary
  String.mk (if digits.isEmpty then digitsOnly raw.toList else digits)

/-- Modelled from the spec words of C9: the digits remaining after taking the
segment of the value before the first hyphen and stripping all non-digit
characters from that segment (no fallback). -/
def sanitizeCotaSpec (raw : String) : String :=
  String.mk (digitsOnly (raw.toList.takeWhile (fun c => c != '-')))

/-! ## Eligibility classification (`FinalWorkingProcessor.search_record`,
lines 1024-1042) -/

/-- Model of one `keyword.upper() in page_upper` test from the keyword scan. -/
def keywordHit (pageUpper kw : List Char) : Bool :=
  containsSub (upperChars kw) pageUpper

/-- Model of the `for keyword in ...: if ...: break` scan loop: true exactly
when some keyword in the list occurs in the uppercased page text. -/
def scanKeywords (pageUpper : List Char) : List (List Char) → Bool
  | [] => false
  | kw :: rest => if keywordHit pageUpper kw then true else scanKeywords pageUpper rest

/-- Model of the eligibility-status detection in `search_record`: the
not-contemplated keywords are scanned first and short-circuit the result;
the contemplated keywords are scanned only if no not-contemplated keyword
matched; otherwise the status stays `UNKNOWN`. -/
def detect_contemplado_status (contempladoKws naoContempladoKws : List (List Char))
    (pageContent : List Char) : String :=
  let pageUpper := upperChars pageContent
  if scanKeywords pageUpper naoContempladoKws then "NÃO CONTEMPLADO"
  else if scanKeywords pageUpper contempladoKws then "CONTEMPLADO"
  else "UNKNOWN"

/-! ## Document-link selection policy (C2)

`FinalWorkingProcessor.download_boletos_final_working` (lines 1160-1167) takes
`pgto_parc_links[:1]` in both branches; `EnhancedProductionProcessor.
download_boletos_enhanced` (lines 861-868) takes `[:1]` for `CONTEMPLADO` and
the whole list otherwise.  The subsequent `for` loop fetches every selected
link, so the selected list is exactly the list of fetched links. -/

/-- Model of the link selection in `download_boletos_final_working`. -/
def finalWorkingLinksToProcess (contempladoStatus : String) (links : List String) :
    List String :=
  if contempladoStatus = "CONTEMPLADO" then links.take 1 else links.take 1

/-- Model of the link selection in `download_boletos_enhanced`. -/
def enhancedLinksToProcess (contempladoStatus : String) (links : List String) :
    List String :=
  if contempladoStatus = "CONTEMPLADO" then links.take 1 else links

/-! ## Slip.asp form payloads (C1)

`open_boleto_page_directly` (lines 833-850) builds `form_data` from the
single-quoted parameters with `params[7].replace(",", ".")` on `valor_total`;
`extract_and_fetch_boleto_direct` (lines 1304-1320) builds `payload` from the
destructured `submit_args[:14]` and passes `valor_total` through unchanged. -/

/-- Lookup of an externally collected hidden form value with a default
(model of `form_values.get(name, default)`). -/
def fvGet (formValues : List (String × String)) (k dflt : String) : String :=
  (List.lookup k formValues).getD dflt

/-- Model of the `form_data` dict built in `open_boleto_page_directly`
(lines 833-850) from the parsed parameter list. -/
def slipFormData (params : List String) : List (String × String) :=
  [("codigo_agente", params.getD 0 ""),
   ("numero_aviso", params.getD 1 ""),
   ("vencto", params.getD 2 ""),
   ("descricao", params.getD 3 ""),
   ("codigo_grupo", params.getD 4 ""),
   ("codigo_cota", params.getD 5 ""),
   ("codigo_movimento", params.getD 6 ""),
   ("valor_total", commaToPeriod (params.getD 7 "")),
   ("desc_pagamento", params.getD 8 ""),
   ("msg_dbt_apenas_parc_antes_venc", params.getD 10 ""),
   ("sn_emite_boleto_pix", params.getD 13 ""),
   ("venctoinput", ""),
   ("Data_Limite_Vencimento_Boleto", ""),
   ("FlagAlterarData", "N"),
   ("codigo_origem_recurso", "0")]

/-- Model of the `payload` dict built in `extract_and_fetch_boleto_direct`
(lines 1304-1320) from `submit_args[:14]` and the collected form values. -/
def slipPayloadDirect (formValues : List (String × String)) (args : List String) :
    List (String × String) :=
  [("numero_aviso", args.getD 1 ""),
   ("vencto", args.getD 2 ""),
   ("venctoinput", fvGet formValues "venctoinput" ""),
   ("valor_total", args.getD 7 ""),
   ("descricao", args.getD 3 ""),
   ("codigo_grupo", args.getD 4 ""),
   ("codigo_cota", args.getD 5 ""),
   ("codigo_movimento", args.getD 6 ""),
   ("codigo_agente", args.getD 0 ""),
   ("desc_pagamento", args.getD 8 ""),
   ("msg_dbt_apenas_parc_antes_venc", args.getD 10 ""),
   ("sn_emite_boleto_pix", args.getD 13 ""),
   ("Data_Limite_Vencimento_Boleto", fvGet formValues "Data_Limite_Vencimento_Boleto" ""),
   ("FlagAlterarData", fvGet formValues "FlagAlterarData" "N"),
   ("codigo_origem_recurso", fvGet formValues "codigo_origem_recurso" "0")]

/-! ## Resume checkpoint (`ResumeManager`, lines 139-202)

The checkpoint JSON file is modelled as `Option ResumeState` (`none` stands
for an absent, invalid or corrupt file, which `load_state` degrades to the
empty dict).  Timestamps are integers supplied by the caller.  A disabled
manager leaves the file untouched and loads the empty state. -/

/-- Model of the checkpoint JSON dict `{pending?, last_processed?, timestamp}`. -/
structure ResumeState where
  pending : Option (String × String) := none
  last_processed : Option (String × String) := none
  timestamp : Int := 0
deriving DecidableEq

/-- Model of `ResumeManager.load_state` (lines 147-158). -/
def load_state (enabled : Bool) (file : Option ResumeState) : ResumeState :=
  if enabled then file.getD {} else {}

/-- Model of `ResumeManager.mark_pending` (lines 174-180). -/
def mark_pending (enabled : Bool) (file : Option ResumeState)
    (grupo cota : String) (now : Int) : Option ResumeState :=
  if enabled then
    some { load_state enabled file with pending := some (grupo, cota), timestamp := now }
  else file

/-- Model of `ResumeManager.mark_completed` (lines 160-172): sets
`last_processed`, pops `pending` when it matches the same key, stamps. -/
def mark_completed (enabled : Bool) (file : Option ResumeState)
    (grupo cota : String) (now : Int) : Option ResumeState :=
  if enabled then
    let st := load_state enabled file
    let st := { st with last_processed := some (grupo, cota) }
    let st := if st.pending = some (grupo, cota) then { st with pending := none } else st
    some { st with timestamp := now }
  else file

/-- Model of `ResumeManager.clear` (lines 182-190): deletes the state file. -/
def clear_resume (enabled : Bool) (file : Option ResumeState) : Option ResumeState :=
  if enabled then none else file

/-! ## Resume-aware queue trimming (`run_automation` lines 1495-1524 and
`find_record_index` lines 1439-1452) -/

/-- Model of one work-queue row (only the key fields the resume logic reads). -/
structure WorkRecord where
  grupo : String
  cota : String
deriving DecidableEq

/-- Model of the per-record comparison inside `find_record_index`. -/
def matchesKey (r : WorkRecord) (key : String × String) : Bool :=
  pyStrip r.grupo == pyStrip key.1 && pyStrip r.cota == pyStrip key.2

/-- Model of the `for idx, record in enumerate(records)` search loop. -/
def findIdxGo (key : String × String) : List WorkRecord → Option Nat
  | [] => none
  | r :: rs => if matchesKey r key then some 0 else (findIdxGo key rs).map (· + 1)

/-- Model of `FinalWorkingProcessor.find_record_index` (lines 1439-1452). -/
def find_record_index (records : List WorkRecord) (key : String × String) :
    Option Nat :=
  if pyStrip key.1 = "" ∨ pyStrip key.2 = "" then none
  else findIdxGo key records

/-- Model of the resume branch of `run_automation` (lines 1496-1524), which
runs after the processed-record filter: a found pending key trims the queue to
start at that record, an unfound pending key clears the checkpoint, and failing
a pending key, a found `last_processed` key trims the queue to start after it.
Returns the trimmed queue together with the possibly cleared state file. -/
def apply_resume (file : Option ResumeState) (records : List WorkRecord) :
    List WorkRecord × Option ResumeState :=
  let st := load_state true file
  match st.pending with
  | some key =>
    match find_record_index records key with
    | some idx => (records.drop idx, file)
    | none => (records, clear_resume true file)
  | none =>
    match st.last_processed with
    | some key =>
      match find_record_index records key with
      | some idx => (records.drop (idx + 1), file)
      | none => (records, file)
    | none => (records, file)

/-- Model of the guard around the resume branch (line 1495): the branch runs
only with resume enabled, not ignored, and `start_from == 0`. -/
def run_resume_filter (resumeEnabled ignoreResume : Bool) (startFrom : Nat)
    (file : Option ResumeState) (records : List WorkRecord) :
    List WorkRecord × Option ResumeState :=
  if resumeEnabled ∧ ¬ignoreResume ∧ startFrom = 0 then apply_resume file records
  else (records, file)

/-! ## Orchestrator record loop and circuit breaker (`run_automation`
lines 1567-1608) -/

/-- Model of one per-record outcome as seen by the loop tail. -/
structure RecordResult where
  grupo : String
  cota : String
  status : String
deriving DecidableEq

/-- Loop state threaded through the record loop: the checkpoint file, the
consecutive-login-failure counter, and whether the run returned early. -/
structure LoopState where
  file : Option ResumeState
  counter : Nat
  aborted : Bool
deriving DecidableEq

/-- Default of `processing.login_failure_checkpoint`
(`setup_resume_manager`, line 1424). -/
def loginFailureCheckpointDefault : Nat := 5

/-- Model of the loop tail for one record (lines 1593-1608): mark the record
pending on a login failure and completed otherwise (when resume is active and
both stripped keys are non-empty), then bump or reset the
consecutive-login-failure counter, aborting the run once it reaches the
threshold. -/
def loopStep (resumeEnabled : Bool) (threshold : Nat) (now : Int)
    (st : LoopState) (r : RecordResult) : LoopState :=
  if st.aborted then st else
  let gk := pyStrip r.grupo
  let ck := pyStrip r.cota
  let file :=
    if resumeEnabled ∧ gk ≠ "" ∧ ck ≠ "" then
      if r.status = "login_failed" then mark_pending true st.file gk ck now
      else mark_completed true st.file gk ck now
    else st.file
  if r.status = "login_failed" then
    { file := file, counter := st.counter + 1,
      aborted := decide (threshold ≤ st.counter + 1) }
  else
    { file := file, counter := 0, aborted := false }

/-- Model of the record loop: fold `loopStep` over the outcome sequence
(an aborted state swallows the remaining records, like the early `return`). -/
def runLoop (resumeEnabled : Bool) (threshold : Nat) (now : Int) :
    LoopState → List RecordResult → LoopState
  | st, [] => st
  | st, r :: rs => runLoop resumeEnabled threshold now
      (loopStep resumeEnabled threshold now st r) rs

/-! ## Processed-record tracker (`ProcessedRecordTracker`, lines 34-135)

The persisted JSON store is a dict keyed by `"grupo|cota"`; it is modelled as
an association list with dict-assignment semantics (`dictInsert` places the
updated binding first and drops the shadowed one, which is extensionally the
dict after assignment).  The store file is `Option` of the same list (`none`
stands for a missing file).  Timestamps are integers measured in days so that
the retention comparison `record_datetime < now - timedelta(days=retention)`
becomes integer arithmetic. -/

/-- Model of one persisted record value built by `mark_processed`. -/
structure ProcessedEntry where
  grupo : String
  cota : String
  timestamp : Int
  downloaded_files : Option (List String) := none
  cpf_cnpj : Option String := none
  drive_file_ids : Option (List String) := none
deriving DecidableEq

/-- Model of the optional `metadata` dict accepted by `mark_processed`. -/
structure TrackMeta where
  timestamp : Option Int := none
  downloaded_files : Option (List String) := none
  cpf_cnpj : Option String := none
  drive_file_ids : Option (List String) := none
deriving DecidableEq

/-- Model of `ProcessedRecordTracker._make_key` (line 108-109). -/
def make_key (grupo cota : String) : String :=
  pyStrip grupo ++ "|" ++ pyStrip cota

/-- Dict assignment `records[key] = value`, extensionally: the new binding
shadows any previous one. -/
def dictInsert (m : List (String × ProcessedEntry)) (k : String)
    (v : ProcessedEntry) : List (String × ProcessedEntry) :=
  (k, v) :: m.filter (fun p => p.1 != k)

/-- Model of the tracker state: the in-memory dict, the persisted store file,
and the configured retention window. -/
structure Tracker where
  records : List (String × ProcessedEntry)
  file : Option (List (String × ProcessedEntry))
  retention_days : Option Int
deriving DecidableEq

/-- Model of `ProcessedRecordTracker.is_processed` (lines 111-114). -/
def is_processed (t : Tracker) (grupo cota : String) : Bool :=
  if grupo = "" ∨ cota = "" then false
  else (t.records.lookup (make_key grupo cota)).isSome

/-- Model of `ProcessedRecordTracker.mark_processed` (lines 116-135): empty
ids return without touching anything, otherwise the entry is upserted and the
whole dict is persisted synchronously. -/
def mark_processed (t : Tracker) (grupo cota : String) (meta : TrackMeta)
    (now : Int) : Tracker :=
  if grupo = "" ∨ cota = "" then t
  else
    let entry : ProcessedEntry :=
      { grupo := grupo, cota := cota,
        timestamp := meta.timestamp.getD now,
        downloaded_files := meta.downloaded_files,
        cpf_cnpj := match meta.cpf_cnpj with
          | some s => if s = "" then none else some s
          | none => none,
        drive_file_ids := match meta.drive_file_ids with
          | some l => if l.isEmpty then none else some l
          | none => none }
    let recs := dictInsert t.records (make_key grupo cota) entry
    { t with records := recs, file := some recs }

/-- Model of `ProcessedRecordTracker._purge_expired` (lines 83-106): with a
falsy retention (absent or zero) nothing is purged; otherwise entries whose
timestamp lies strictly before `now - retention_days` are dropped. -/
def purge_expired (retention : Option Int) (now : Int)
    (records : List (String × ProcessedEntry)) : List (String × ProcessedEntry) :=
  match retention with
  | none => records
  | some days =>
    if days = 0 then records
    else records.filter (fun p => decide (now - days ≤ p.2.timestamp))

/-- Model of reconstructing the tracker from the persisted file (the
constructor, lines 37-50: `_load`, then `_purge_expired`, then `_save` if
anything was purged). -/
def tracker_reload (file : Option (List (String × ProcessedEntry)))
    (retention : Option Int) (now : Int) : Tracker :=
  let loaded := file.getD []
  let purged := purge_expired retention now loaded
  { records := purged,
    file := if purged = loaded then file else some purged,
    retention_days := retention }

/-! ## Submit-argument parsing (`parse_submit_function_args`, lines 498-511)

`re.search(r"submitFunction\((.*)\)", attr, re.DOTALL)` matches at the
leftmost occurrence of the literal `submitFunction(` and the greedy `.*`
extends the group to the last `)` of the whole string (failing when there is
none); `ast.literal_eval` then evaluates `[` ++ group ++ `]`, and a
`ValueError` or `SyntaxError` is converted into a parse failure (`None`),
after which each evaluated value is rendered as a string with `None`
normalized to the empty string.  The literal grammar is modelled for the
fragment the attribute format exercises: single- or double-quoted strings
with backslash escapes, `None` and integer literals, separated by commas with
arbitrary interleaved whitespace (so the argument list may span several lines
and quoted arguments may embed commas).  Anything else makes the modelled
tokenizer fail, as `ast.literal_eval` fails on malformed literal lists. -/

/-- Single-quote character. -/
def squote : Char := Char.ofNat 39

/-- Double-quote character. -/
def dquote : Char := Char.ofNat 34

/-- Backslash character. -/
def bslash : Char := Char.ofNat 92

/-- Newline character. -/
def nlChar : Char := Char.ofNat 10

/-- The literal text searched by the regex before the argument group. -/
def callPattern : List Char := "submitFunction(".toList

/-- Leftmost-occurrence search: the text after the first occurrence of the
call pattern, or `none` when the attribute holds no such occurrence. -/
def findAfterCall (l : List Char) : Option (List Char) :=
  if callPattern.isPrefixOf l then some (l.drop callPattern.length)
  else
    match l with
    | [] => none
    | _ :: cs => findAfterCall cs

/-- Greedy close: the text up to (excluding) the last closing parenthesis,
or `none` when there is none (the regex then has no match at all). -/
def upToLastClose (l : List Char) : Option (List Char) :=
  match l.reverse.dropWhile (fun c => c != ')') with
  | [] => none
  | _ :: t => some t.reverse

/-- Values produced by the modelled `ast.literal_eval` fragment. -/
inductive PyLit where
  | pstr (s : List Char)
  | pnone
  | pint (n : Int)
deriving DecidableEq

/-- Escape resolution inside quoted string literals (the common escapes). -/
def unescape (c : Char) : Option Char :=
  if c = squote then some squote
  else if c = dquote then some dquote
  else if c = bslash then some bslash
  else if c = 'n' then some nlChar
  else if c = 't' then some (Char.ofNat 9)
  else if c = 'r' then some (Char.ofNat 13)
  else none

/-- Quoted-string body: the content up to the closing quote together with the
remaining input, or `none` on an unterminated string or unknown escape. -/
def parseStringBody (q : Char) : List Char → Option (List Char × List Char)
  | [] => none
  | c :: cs =>
    if c = q then some ([], cs)
    else if c = bslash then
      match cs with
      | [] => none
      | e :: cs2 =>
        match unescape e with
        | none => none
        | some d =>
          match parseStringBody q cs2 with
          | none => none
          | some (b, r) => some (d :: b, r)
    else
      match parseStringBody q cs with
      | none => none
      | some (b, r) => some (c :: b, r)

/-- Longest digit run at the front of the input. -/
def parseDigits : List Char → List Char × List Char
  | [] => ([], [])
  | c :: cs =>
    if c.isDigit then
      let (ds, r) := parseDigits cs
      (c :: ds, r)
    else ([], c :: cs)

/-- Numeric value of a digit run. -/
def digitsToNat (ds : List Char) : Nat :=
  ds.foldl (fun acc c => acc * 10 + (c.toNat - 48)) 0

/-- Integer literal (optional minus sign, no leading zeros, as in Python). -/
def parseIntLit (l : List Char) : Option (PyLit × List Char) :=
  match l with
  | '-' :: rest =>
    let (ds, r) := parseDigits rest
    if ds.isEmpty then none
    else if ds.length > 1 ∧ ds.headD '0' = '0' then none
    else some (PyLit.pint (-(digitsToNat ds : Int)), r)
  | _ =>
    let (ds, r) := parseDigits l
    if ds.isEmpty then none
    else if ds.length > 1 ∧ ds.headD '0' = '0' then none
    else some (PyLit.pint (digitsToNat ds), r)

/-- Test for the `None` keyword at the front of the input. -/
def startsNone (l : List Char) : Bool :=
  "None".toList.isPrefixOf l

/-- One literal after optional leading whitespace. -/
def parseLit (l : List Char) : Option (PyLit × List Char) :=
  let l1 := l.dropWhile Char.isWhitespace
  match l1 with
  | [] => none
  | c :: cs =>
    if c = squote then
      match parseStringBody squote cs with
      | none => none
      | some (b, r) => some (PyLit.pstr b, r)
    else if c = dquote then
      match parseStringBody dquote cs with
      | none => none
      | some (b, r) => some (PyLit.pstr b, r)
    else if startsNone l1 then some (PyLit.pnone, l1.drop 4)
    else if c = '-' ∨ c.isDigit then parseIntLit l1
    else none

/-- Comma-separated literal list (the content between the added brackets of
`ast.literal_eval(f"[{args_str}]")`), with a trailing comma tolerated as in
Python; the fuel argument only bounds the recursion and never runs out when
it starts above the input length, because every round consumes input. -/
def parseItems : Nat → List Char → Option (List PyLit)
  | 0, _ => none
  | fuel + 1, l =>
    if (l.dropWhile Char.isWhitespace).isEmpty then some []
    else
      match parseLit l with
      | none => none
      | some (v, r) =>
        match r.dropWhile Char.isWhitespace with
        | [] => some [v]
        | c :: r2 =>
          if c = ',' then
            match parseItems fuel r2 with
            | none => none
            | some vs => some (v :: vs)
          else none

/-- Model of `"" if value is None else str(value)` (line 509). -/
def normLit : PyLit → String
  | PyLit.pstr s => String.mk s
  | PyLit.pnone => ""
  | PyLit.pint n => toString n

/-- Model of `FinalWorkingProcessor.parse_submit_function_args`
(lines 498-511): empty attribute, missing call pattern, missing closing
parenthesis, or an untokenizable argument list all yield `none`. -/
def parse_submit_function_args (attr : List Char) : Option (List String) :=
  if attr.isEmpty then none
  else
    match findAfterCall attr with
    | none => none
    | some rest =>
      match upToLastClose rest with
      | none => none
      | some body =>
        match parseItems (body.length + 1) body with
        | none => none
        | some lits => some (lits.map normLit)

/-! ## Attribute rendering for the round-trip statement of C4 -/

/-- Source-level argument of a rendered `submitFunction` call: a
single-quoted string or the `None` literal. -/
inductive SubmitArg where
  | astr (s : List Char)
  | anull
deriving DecidableEq

/-- Concrete text of one argument. -/
def renderArg : SubmitArg → List Char
  | SubmitArg.astr s => squote :: s ++ [squote]
  | SubmitArg.anull => "None".toList

/-- Literal value the modelled `ast.literal_eval` assigns to one argument. -/
def litOf : SubmitArg → PyLit
  | SubmitArg.astr s => PyLit.pstr s
  | SubmitArg.anull => PyLit.pnone

/-- String the parser is expected to return for one argument. -/
def argValue : SubmitArg → String
  | SubmitArg.astr s => String.mk s
  | SubmitArg.anull => ""

/-- Well-formed rendered argument: a quoted string may not embed a quote or a
backslash (it may embed commas, parentheses and spaces). -/
def wfArg : SubmitArg → Bool
  | SubmitArg.astr s => s.all fun ch => ch != squote && ch != bslash
  | SubmitArg.anull => true

/-- Argument list text: comma-separated with a line break after each comma,
exercising the multi-line tolerance of the `re.DOTALL` search. -/
def renderBody : List SubmitArg → List Char
  | [] => []
  | [a] => renderArg a
  | a :: rest => renderArg a ++ ',' :: nlChar :: renderBody rest

/-- Whole attribute text around the rendered call. -/
def renderAttr (pre : List Char) (args : List SubmitArg) (suf : List Char) :
    List Char :=
  pre ++ callPattern ++ renderBody args ++ ')' :: suf

/-! ## Theorems -/

/-- Substring containment agrees with the library infix relation. -/
theorem containsSub_eq_true_iff (needle : List Char) :
    ∀ hay : List Char, containsSub needle hay = true ↔ needle <:+: hay := by
  intro hay
  induction hay with
  | nil =>
    simp [containsSub, List.isEmpty_iff, List.infix_nil]
  | cons c rest ih =>
    simp only [containsSub, Bool.or_eq_true, List.isPrefixOf_iff_prefix, ih]
    exact List.infix_cons_iff.symm

/-- Keyword scan succeeds exactly when some keyword in the list occurs in the
uppercased page text. -/
theorem scanKeywords_eq_true_iff (pageUpper : List Char) :
    ∀ kws : List (List Char),
      scanKeywords pageUpper kws = true ↔
        ∃ kw ∈ kws, upperChars kw <:+: pageUpper := by
  intro kws
  induction kws with
  | nil => simp [scanKeywords]
  | cons kw rest ih =>
    by_cases h : keywordHit pageUpper kw = true
    · have hk : upperChars kw <:+: pageUpper := (containsSub_eq_true_iff _ _).mp h
      simp only [scanKeywords, h, if_true, true_iff]
      exact ⟨kw, List.mem_cons_self kw rest, hk⟩
    · have hk : ¬ upperChars kw <:+: pageUpper := fun hc =>
        h ((containsSub_eq_true_iff _ _).mpr hc)
      have hstep : scanKeywords pageUpper (kw :: rest) = scanKeywords pageUpper rest := by
        simp [scanKeywords, h]
      rw [hstep, ih]
      constructor
      · rintro ⟨k, hk1, hk2⟩
        exact ⟨k, List.mem_cons_of_mem _ hk1, hk2⟩
      · rintro ⟨k, hk1, hk2⟩
        rcases List.mem_cons.mp hk1 with rfl | hk1
        · exact absurd hk2 hk
        · exact ⟨k, hk1, hk2⟩

/-- C3: for every page text and keyword lists, a case-insensitive occurrence of
any not-contemplated keyword forces the classification `NÃO CONTEMPLADO`
regardless of contemplated-keyword occurrences; with no not-contemplated match,
a contemplated match yields `CONTEMPLADO`; with neither, `UNKNOWN`. -/
theorem detect_contemplado_status_spec
    (cKws ncKws : List (List Char)) (text : List Char) :
    ((∃ kw ∈ ncKws, upperChars kw <:+: upperChars text) →
        detect_contemplado_status cKws ncKws text = "NÃO CONTEMPLADO") ∧
    ((∀ kw ∈ ncKws, ¬ upperChars kw <:+: upperChars text) →
      (∃ kw ∈ cKws, upperChars kw <:+: upperChars text) →
        detect_contemplado_status cKws ncKws text = "CONTEMPLADO") ∧
    ((∀ kw ∈ ncKws, ¬ upperChars kw <:+: upperChars text) →
      (∀ kw ∈ cKws, ¬ upperChars kw <:+: upperChars text) →
        detect_contemplado_status cKws ncKws text = "UNKNOWN") := by
  refine ⟨?_, ?_, ?_⟩
  · intro h
    have hs : scanKeywords (upperChars text) ncKws = true :=
      (scanKeywords_eq_true_iff _ _).mpr h
    simp [detect_contemplado_status, hs]
  · intro hnone h
    have hs : ¬ scanKeywords (upperChars text) ncKws = true := by
      rw [scanKeywords_eq_true_iff]
      rintro ⟨k, hk1, hk2⟩
      exact hnone k hk1 hk2
    have hc : scanKeywords (upperChars text) cKws = true :=
      (scanKeywords_eq_true_iff _ _).mpr h
    simp [detect_contemplado_status, hs, hc]
  · intro hnone hcnone
    have hs : ¬ scanKeywords (upperChars text) ncKws = true := by
      rw [scanKeywords_eq_true_iff]
      rintro ⟨k, hk1, hk2⟩
      exact hnone k hk1 hk2
    have hc : ¬ scanKeywords (upperChars text) cKws = true := by
      rw [scanKeywords_eq_true_iff]
      rintro ⟨k, hk1, hk2⟩
      exact hcnone k hk1 hk2
    simp [detect_contemplado_status, hs, hc]

/-- Witness for C3: the page text contains the contemplated keyword
`CONTEMPLADO` as a substring of `NAO CONTEMPLADO`, yet the classification is
`NÃO CONTEMPLADO`; a page with only the contemplated keyword classifies as
`CONTEMPLADO`; an unrelated page classifies as `UNKNOWN`. -/
theorem detect_contemplado_status_spec_witness :
    detect_contemplado_status ["CONTEMPLADO".toList] ["NAO CONTEMPLADO".toList]
        "GRUPO NAO CONTEMPLADO".toList = "NÃO CONTEMPLADO" ∧
    detect_contemplado_status ["CONTEMPLADO".toList] ["NAO CONTEMPLADO".toList]
        "cliente contemplado".toList = "CONTEMPLADO" ∧
    detect_contemplado_status ["CONTEMPLADO".toList] ["NAO CONTEMPLADO".toList]
        "pagina qualquer".toList = "UNKNOWN" := by
  refine ⟨?_, ?_, ?_⟩
  · exact (detect_contemplado_status_spec _ _ _).1 (by decide)
  · exact (detect_contemplado_status_spec _ _ _).2.1 (by decide) (by decide)
  · exact (detect_contemplado_status_spec _ _ _).2.2 (by decide) (by decide)

/-- C9 counterexample: for the raw value `-45` the segment before the first
hyphen is empty and holds no digits, so the spec formula yields the empty
string, while the source falls back to stripping non-digits from the whole
raw value and returns `45`. -/
theorem sanitize_cota_counterexample :
    sanitize_cota "-45" = "45" ∧ sanitizeCotaSpec "-45" = "" ∧
      sanitize_cota "-45" ≠ sanitizeCotaSpec "-45" := by
  refine ⟨by decide, by decide, by decide⟩

/-- C9 amended: the sanitized quota id equals the digits of the segment before
the first hyphen whenever that segment holds at least one digit; when it holds
none, the source falls back to the digits of the entire raw value. -/
theorem sanitize_cota_amended (raw : String) :
    (digitsOnly (raw.toList.takeWhile (fun c => c != '-')) ≠ [] →
      sanitize_cota raw = sanitizeCotaSpec raw) ∧
    (digitsOnly (raw.toList.takeWhile (fun c => c != '-')) = [] →
      sanitize_cota raw = String.mk (digitsOnly raw.toList)) := by
  constructor
  · intro h
    simp only [String.toList] at h
    simp [sanitize_cota, sanitizeCotaSpec, h]
  · intro h
    simp only [String.toList] at h
    simp [sanitize_cota, h]

/-- Witness for C9 amended: `12-3A` keeps the digits before the hyphen, and
`-45` falls back to the digits of the whole value. -/
theorem sanitize_cota_amended_witness :
    sanitize_cota "12-3A" = "12" ∧ sanitize_cota "-45" = "45" := by
  constructor
  · exact ((sanitize_cota_amended "12-3A").1 (by decide)).trans (by decide)
  · exact ((sanitize_cota_amended "-45").2 (by decide)).trans (by decide)

/-- C2 counterexample: a not-contemplated record page with two document links,
where the final working processor fetches only the first link instead of all
of them. -/
theorem finalWorkingLinksToProcess_counterexample :
    finalWorkingLinksToProcess "NÃO CONTEMPLADO" ["L1", "L2"] ≠ ["L1", "L2"] := by
  decide

/-- C2 amended: the enhanced processor fetches exactly the first link for a
contemplated record and all links otherwise; the final working processor
fetches exactly the first link regardless of the eligibility status. -/
theorem linksToProcess_amended (status : String) (links : List String)
    (h : links ≠ []) :
    (status = "CONTEMPLADO" → enhancedLinksToProcess status links = links.take 1) ∧
    (status ≠ "CONTEMPLADO" → enhancedLinksToProcess status links = links) ∧
    finalWorkingLinksToProcess status links = links.take 1 ∧
    (finalWorkingLinksToProcess status links).head? = links.head? := by
  obtain ⟨a, t, rfl⟩ : ∃ a t, links = a :: t := by
    cases links with
    | nil => exact absurd rfl h
    | cons a t => exact ⟨a, t, rfl⟩
  refine ⟨fun hs => by simp [enhancedLinksToProcess, hs],
          fun hs => by simp [enhancedLinksToProcess, hs],
          ?_, ?_⟩
  · by_cases hs : status = "CONTEMPLADO" <;>
      simp [finalWorkingLinksToProcess, hs]
  · by_cases hs : status = "CONTEMPLADO" <;>
      simp [finalWorkingLinksToProcess, hs]

/-- Witness for C2 amended: with two links, the enhanced processor fetches both
for a not-contemplated record, while the final working processor fetches only
the first even then. -/
theorem linksToProcess_amended_witness :
    enhancedLinksToProcess "NÃO CONTEMPLADO" ["L1", "L2"] = ["L1", "L2"] ∧
    finalWorkingLinksToProcess "NÃO CONTEMPLADO" ["L1", "L2"] = ["L1"] := by
  constructor
  · exact (linksToProcess_amended "NÃO CONTEMPLADO" ["L1", "L2"] (by decide)).2.1
      (by decide)
  · exact (linksToProcess_amended "NÃO CONTEMPLADO" ["L1", "L2"] (by decide)).2.2.1

/-- C1: evaluation of both Slip.asp payload builders at an argument list whose
total-value argument is the locale-formatted `1.234,56`: the payload built by
`extract_and_fetch_boleto_direct` sends the value unchanged with its comma,
while the sibling `open_boleto_page_directly` builder replaces every comma
with a period, which both its own `CRITICAL FIX` comment and the spec require
for this field. -/
theorem slipPayloadDirect_keeps_comma :
    (slipPayloadDirect []
        ["AG1", "N100", "15/12/2025", "PGTO PARC", "G1", "Q1", "M1", "1.234,56",
         "PAG", "N", "MSG", "N", "S", "S"]).lookup "valor_total" = some "1.234,56" ∧
    (slipFormData
        ["AG1", "N100", "15/12/2025", "PGTO PARC", "G1", "Q1", "M1", "1.234,56",
         "PAG", "N", "MSG", "N", "S", "S"]).lookup "valor_total" = some "1.234.56" ∧
    ("1.234,56" : String) ≠ "1.234.56" := by
  refine ⟨by decide, by decide, by decide⟩

/-- Any key found by the record search can be recovered as the head of the
queue dropped at the reported index, and it matches the search key. -/
theorem findIdxGo_drop (key : String × String) :
    ∀ (records : List WorkRecord) (idx : Nat),
      findIdxGo key records = some idx →
      ∃ r rest, records.drop idx = r :: rest ∧ matchesKey r key = true := by
  intro records
  induction records with
  | nil => intro idx h; simp [findIdxGo] at h
  | cons r rs ih =>
    intro idx h
    by_cases hm : matchesKey r key = true
    · simp only [findIdxGo, hm, if_true, Option.some.injEq] at h
      subst h
      exact ⟨r, rs, rfl, hm⟩
    · have hm2 : matchesKey r key = false := by
        cases hb : matchesKey r key
        · rfl
        · exact absurd hb hm
      simp only [findIdxGo, hm2, Bool.false_eq_true, if_false] at h
      rcases Option.map_eq_some'.mp h with ⟨j, hj, rfl⟩
      rcases ih j hj with ⟨r2, rest2, hdrop, hmk⟩
      exact ⟨r2, rest2, by simpa [List.drop_succ_cons] using hdrop, hmk⟩

/-- Specialization of the previous lemma through the empty-key guard. -/
theorem find_record_index_drop (records : List WorkRecord) (key : String × String)
    (idx : Nat) (h : find_record_index records key = some idx) :
    ∃ r rest, records.drop idx = r :: rest ∧ matchesKey r key = true := by
  by_cases hc : pyStrip key.1 = "" ∨ pyStrip key.2 = ""
  · simp [find_record_index, hc] at h
  · rw [find_record_index, if_neg hc] at h
    exact findIdxGo_drop key records idx h

/-- C5: marking a key pending and then crashing (no completion) leaves the
loaded checkpoint with exactly that pending key; completing the key sets
`last_processed` to it and clears `pending` whenever the stored pending key
equals it. -/
theorem resume_checkpoint_spec (g c : String) (file : Option ResumeState)
    (now now2 : Int) :
    (load_state true (mark_pending true file g c now)).pending = some (g, c) ∧
    ((load_state true file).pending = some (g, c) →
      (load_state true (mark_completed true file g c now2)).pending = none) ∧
    (load_state true (mark_completed true file g c now2)).last_processed =
      some (g, c) ∧
    (load_state true
        (mark_completed true (mark_pending true file g c now) g c now2)).pending =
      none := by
  refine ⟨?_, ?_, ?_, ?_⟩
  · simp [load_state, mark_pending]
  · intro h
    simp only [load_state, if_true] at h
    simp [mark_completed, load_state, h]
  · simp only [mark_completed, load_state, if_true]
    split <;> simp
  · simp [mark_completed, mark_pending, load_state]

/-- Witness for C5 at the key of the spec scenario `("10", "20")`. -/
theorem resume_checkpoint_spec_witness :
    (load_state true (mark_pending true none "10" "20" 1)).pending =
      some ("10", "20") ∧
    (load_state true
        (mark_completed true (some { pending := some ("10", "20") }) "10" "20" 2)).pending =
      none := by
  constructor
  · exact (resume_checkpoint_spec "10" "20" none 1 2).1
  · exact (resume_checkpoint_spec "10" "20" (some { pending := some ("10", "20") }) 1 2).2.1
      (by decide)

/-- C6: with resume enabled, not ignored and `start_from = 0`: a pending key
found in the queue makes processing resume at exactly that record (the record
is not skipped), and with no pending entry a found `last_processed` key makes
processing resume at the record immediately after it. -/
theorem resume_restart_spec (file : Option ResumeState) (records : List WorkRecord) :
    (∀ key idx, (load_state true file).pending = some key →
      find_record_index records key = some idx →
      (run_resume_filter true false 0 file records).1 = records.drop idx ∧
      ∃ r rest, (run_resume_filter true false 0 file records).1 = r :: rest ∧
        matchesKey r key = true) ∧
    (∀ key idx, (load_state true file).pending = none →
      (load_state true file).last_processed = some key →
      find_record_index records key = some idx →
      (run_resume_filter true false 0 file records).1 = records.drop (idx + 1)) := by
  constructor
  · intro key idx hp hf
    have hval : run_resume_filter true false 0 file records = (records.drop idx, file) := by
      simp [run_resume_filter, apply_resume, hp, hf]
    rcases find_record_index_drop records key idx hf with ⟨r, rest, hd, hm⟩
    refine ⟨by rw [hval], r, rest, ?_, hm⟩
    rw [hval]
    exact hd
  · intro key idx hp hl hf
    simp [run_resume_filter, apply_resume, hp, hl, hf]

/-- Witness for C6: a checkpoint pending at `("10", "20")` resumes at that
record; a checkpoint with only `last_processed = ("10", "20")` resumes at the
record after it. -/
theorem resume_restart_spec_witness :
    (run_resume_filter true false 0 (some { pending := some ("10", "20") })
        [⟨"9", "9"⟩, ⟨"10", "20"⟩, ⟨"11", "21"⟩]).1 =
      [⟨"10", "20"⟩, ⟨"11", "21"⟩] ∧
    (run_resume_filter true false 0 (some { last_processed := some ("10", "20") })
        [⟨"9", "9"⟩, ⟨"10", "20"⟩, ⟨"11", "21"⟩]).1 = [⟨"11", "21"⟩] := by
  constructor
  · exact ((resume_restart_spec (some { pending := some ("10", "20") })
      [⟨"9", "9"⟩, ⟨"10", "20"⟩, ⟨"11", "21"⟩]).1 ("10", "20") 1 (by decide)
      (by decide)).1.trans (by decide)
  · exact ((resume_restart_spec (some { last_processed := some ("10", "20") })
      [⟨"9", "9"⟩, ⟨"10", "20"⟩, ⟨"11", "21"⟩]).2 ("10", "20") 1 (by decide)
      (by decide) (by decide)).trans (by decide)

/-- A run over consecutive login failures whose count reaches the threshold
aborts with the checkpoint pending at the last failed record. -/
theorem runLoop_consecutive_failures (thr : Nat) (now : Int) :
    ∀ (rs : List RecordResult) (st : LoopState),
      st.aborted = false →
      (∀ r ∈ rs, r.status = "login_failed" ∧ pyStrip r.grupo ≠ "" ∧
        pyStrip r.cota ≠ "") →
      st.counter + rs.length = thr →
      rs ≠ [] →
      (runLoop true thr now st rs).aborted = true ∧
      ∃ last, rs.getLast? = some last ∧
        (load_state true (runLoop true thr now st rs).file).pending =
          some (pyStrip last.grupo, pyStrip last.cota) := by
  intro rs
  induction rs with
  | nil =>
    intro st _ _ _ hne
    exact absurd rfl hne
  | cons r rest ih =>
    intro st hab hall hlen _
    obtain ⟨hs, hg, hc⟩ := hall r (List.mem_cons_self r rest)
    have hstep : loopStep true thr now st r =
        { file := mark_pending true st.file (pyStrip r.grupo) (pyStrip r.cota) now,
          counter := st.counter + 1,
          aborted := decide (thr ≤ st.counter + 1) } := by
      simp [loopStep, hab, hs, hg, hc]
    cases rest with
    | nil =>
      have hthr : thr ≤ st.counter + 1 := by
        simp only [List.length_cons, List.length_nil] at hlen
        omega
      have habort : decide (thr ≤ st.counter + 1) = true := decide_eq_true hthr
      refine ⟨?_, r, rfl, ?_⟩
      · simp [runLoop, hstep, habort]
      · simp [runLoop, hstep, load_state, mark_pending]
    | cons x xs =>
      have hlt : ¬ thr ≤ st.counter + 1 := by
        simp only [List.length_cons] at hlen
        omega
      have habort : decide (thr ≤ st.counter + 1) = false := decide_eq_false hlt
      have hst1 : loopStep true thr now st r =
          { file := mark_pending true st.file (pyStrip r.grupo) (pyStrip r.cota) now,
            counter := st.counter + 1, aborted := false } := by
        rw [hstep, habort]
      have hall2 : ∀ q ∈ x :: xs, q.status = "login_failed" ∧
          pyStrip q.grupo ≠ "" ∧ pyStrip q.cota ≠ "" :=
        fun q hq => hall q (List.mem_cons_of_mem _ hq)
      have hlen2 : (st.counter + 1) + (x :: xs).length = thr := by
        simp only [List.length_cons] at hlen ⊢
        omega
      have hmain :=
        ih { file := mark_pending true st.file (pyStrip r.grupo) (pyStrip r.cota) now,
             counter := st.counter + 1, aborted := false }
          rfl hall2 hlen2 (by simp)
      have hrun : runLoop true thr now st (r :: x :: xs) =
          runLoop true thr now
            { file := mark_pending true st.file (pyStrip r.grupo) (pyStrip r.cota) now,
              counter := st.counter + 1, aborted := false } (x :: xs) := by
        rw [runLoop, hst1]
      rcases hmain with ⟨ha, last, hl, hp⟩
      refine ⟨by rw [hrun]; exact ha, last, ?_, by rw [hrun]; exact hp⟩
      rw [List.getLast?_cons_cons]
      exact hl

/-- C7: the loop resets the consecutive-login-failure counter to zero on every
record whose outcome is not a login failure; a run of consecutive login
failures reaching the threshold (from a zero counter) aborts with the
checkpoint pending entry naming the last failed record, so a later
resume-enabled run whose queue still holds that key starts at exactly that
record; the configured threshold defaults to 5. -/
theorem circuit_breaker_spec (thr : Nat) (now : Int) :
    (∀ (st : LoopState) (r : RecordResult), st.aborted = false →
        r.status ≠ "login_failed" → (loopStep true thr now st r).counter = 0) ∧
    (∀ (rs : List RecordResult) (st : LoopState),
        st.aborted = false → st.counter = 0 →
        (∀ r ∈ rs, r.status = "login_failed" ∧ pyStrip r.grupo ≠ "" ∧
          pyStrip r.cota ≠ "") →
        rs.length = thr → rs ≠ [] →
        (runLoop true thr now st rs).aborted = true ∧
        ∃ last, rs.getLast? = some last ∧
          (load_state true (runLoop true thr now st rs).file).pending =
            some (pyStrip last.grupo, pyStrip last.cota) ∧
          ∀ records idx,
            find_record_index records (pyStrip last.grupo, pyStrip last.cota) =
              some idx →
            ∃ q qrest,
              (apply_resume (runLoop true thr now st rs).file records).1 =
                q :: qrest ∧
              matchesKey q (pyStrip last.grupo, pyStrip last.cota) = true) ∧
    loginFailureCheckpointDefault = 5 := by
  refine ⟨?_, ?_, rfl⟩
  · intro st r hab hs
    simp [loopStep, hab, hs]
  · intro rs st hab hcnt hall hlen hne
    have hlen0 : st.counter + rs.length = thr := by omega
    obtain ⟨ha, last, hl, hp⟩ :=
      runLoop_consecutive_failures thr now rs st hab hall hlen0 hne
    refine ⟨ha, last, hl, hp, ?_⟩
    intro records idx hfind
    rcases find_record_index_drop records _ idx hfind with ⟨q, qrest, hd, hm⟩
    have hval : (apply_resume (runLoop true thr now st rs).file records).1 =
        records.drop idx := by
      simp [apply_resume, hp, hfind]
    exact ⟨q, qrest, hval.trans hd, hm⟩

/-- Witness for C7: a non-failure outcome resets a counter of 3 to zero, and
five consecutive login failures with the default threshold abort the run. -/
theorem circuit_breaker_spec_witness :
    (loopStep true 5 0 ⟨none, 3, false⟩ ⟨"1", "2", "success"⟩).counter = 0 ∧
    (runLoop true 5 0 ⟨none, 0, false⟩
        [⟨"1", "10", "login_failed"⟩, ⟨"2", "20", "login_failed"⟩,
         ⟨"3", "30", "login_failed"⟩, ⟨"4", "40", "login_failed"⟩,
         ⟨"5", "50", "login_failed"⟩]).aborted = true := by
  constructor
  · exact (circuit_breaker_spec 5 0).1 ⟨none, 3, false⟩ ⟨"1", "2", "success"⟩ rfl
      (by decide)
  · exact ((circuit_breaker_spec 5 0).2.1
      [⟨"1", "10", "login_failed"⟩, ⟨"2", "20", "login_failed"⟩,
       ⟨"3", "30", "login_failed"⟩, ⟨"4", "40", "login_failed"⟩,
       ⟨"5", "50", "login_failed"⟩]
      ⟨none, 0, false⟩ rfl rfl (by decide) (by decide) (by decide)).1

/-- C8 counterexample: `mark_processed` with metadata carrying a timestamp
older than the retention window is visible in the same process, but the
reconstruction from the persisted file purges it, so `is_processed` returns
false after the restart. -/
theorem mark_processed_restart_counterexample :
    is_processed
      (mark_processed ⟨[], none, some 1⟩ "1" "2" { timestamp := some 0 } 0)
      "1" "2" = true ∧
    is_processed
      (tracker_reload
        (mark_processed ⟨[], none, some 1⟩ "1" "2" { timestamp := some 0 } 0).file
        (some 1) 100)
      "1" "2" = false := by
  constructor
  · decide
  · decide

/-- C8 amended: for non-empty ids, `mark_processed` followed by `is_processed`
returns true, and it still returns true after the tracker is reconstructed
from the persisted store file provided the entry is not purged at reload: the
reload retention is absent or zero, or the entry's timestamp is within the
retention window at reload time. -/
theorem mark_processed_persists (t : Tracker) (g c : String) (meta : TrackMeta)
    (now : Int) (hg : g ≠ "") (hc : c ≠ "") :
    is_processed (mark_processed t g c meta now) g c = true ∧
    ∀ (r2 : Option Int) (now2 : Int),
      (∀ d, r2 = some d → d = 0 ∨ now2 - d ≤ meta.timestamp.getD now) →
      is_processed (tracker_reload (mark_processed t g c meta now).file r2 now2)
        g c = true := by
  have hguard : ¬ (g = "" ∨ c = "") := by
    rintro (h | h)
    · exact hg h
    · exact hc h
  have hmark : mark_processed t g c meta now =
      { t with
        records := dictInsert t.records (make_key g c)
          { grupo := g, cota := c,
            timestamp := meta.timestamp.getD now,
            downloaded_files := meta.downloaded_files,
            cpf_cnpj := match meta.cpf_cnpj with
              | some s => if s = "" then none else some s
              | none => none,
            drive_file_ids := match meta.drive_file_ids with
              | some l => if l.isEmpty then none else some l
              | none => none },
        file := some (dictInsert t.records (make_key g c)
          { grupo := g, cota := c,
            timestamp := meta.timestamp.getD now,
            downloaded_files := meta.downloaded_files,
            cpf_cnpj := match meta.cpf_cnpj with
              | some s => if s = "" then none else some s
              | none => none,
            drive_file_ids := match meta.drive_file_ids with
              | some l => if l.isEmpty then none else some l
              | none => none }) } := by
    rw [mark_processed, if_neg hguard]
  constructor
  · rw [hmark, is_processed, if_neg hguard]
    simp [dictInsert, List.lookup]
  · intro r2 now2 hkeep
    rw [hmark]
    rw [is_processed, if_neg hguard]
    simp only [tracker_reload, Option.getD_some]
    cases r2 with
    | none => simp [purge_expired, dictInsert, List.lookup]
    | some d =>
      rcases hkeep d rfl with hd | hd
      · simp [purge_expired, hd, dictInsert, List.lookup]
      · by_cases hz : d = 0
        · simp [purge_expired, hz, dictInsert, List.lookup]
        · simp [purge_expired, hz, dictInsert, List.lookup, List.filter, hd]

/-- Witness for C8 amended: a fresh mark at day 5 survives a reload at day 10
with a 30-day retention window. -/
theorem mark_processed_persists_witness :
    is_processed (mark_processed ⟨[], none, none⟩ "1" "2" {} 5) "1" "2" = true ∧
    is_processed
      (tracker_reload (mark_processed ⟨[], none, none⟩ "1" "2" {} 5).file
        (some 30) 10) "1" "2" = true := by
  constructor
  · exact (mark_processed_persists ⟨[], none, none⟩ "1" "2" {} 5 (by decide)
      (by decide)).1
  · exact (mark_processed_persists ⟨[], none, none⟩ "1" "2" {} 5 (by decide)
      (by decide)).2 (some 30) 10 (by intro d hd; cases hd; right; decide)

/-- C10 counterexample: a whitespace-only (hence non-empty) group id passes
the truthiness guard but is stripped inside `_make_key`, so the store gains
the key `"|5"`, whose group component (the segment before the bar) is empty. -/
theorem mark_processed_blank_counterexample :
    (mark_processed ⟨[], none, none⟩ " " "5" {} 0).records.map Prod.fst =
      ["|5"] ∧
    ("|5").toList.takeWhile (fun ch => ch != '|') = [] := by
  constructor
  · decide
  · decide

/-- C10 amended: whenever either id is the empty string, `is_processed`
returns false and `mark_processed` leaves the tracker (its record store and
its persisted file) entirely unchanged; the guard however tests the ids
before stripping, so a whitespace-only id can still produce a key with an
empty component. -/
theorem empty_id_guard (t : Tracker) (g c : String) (meta : TrackMeta)
    (now : Int) (h : g = "" ∨ c = "") :
    is_processed t g c = false ∧ mark_processed t g c meta now = t := by
  constructor
  · rw [is_processed, if_pos h]
  · rw [mark_processed, if_pos h]

/-- Witness for C10 amended at an empty group id. -/
theorem empty_id_guard_witness :
    is_processed ⟨[("1|2", ⟨"1", "2", 0, none, none, none⟩)], none, none⟩ "" "2" =
      false ∧
    mark_processed ⟨[], none, none⟩ "" "2" {} 0 = ⟨[], none, none⟩ := by
  constructor
  · exact (empty_id_guard ⟨[("1|2", ⟨"1", "2", 0, none, none, none⟩)], none, none⟩
      "" "2" {} 0 (Or.inl rfl)).1
  · exact (empty_id_guard ⟨[], none, none⟩ "" "2" {} 0 (Or.inl rfl)).2

/-- Dropping a whitespace run prefixed to a list drops exactly that run. -/
theorem dropWhile_append_all (p : Char → Bool) :
    ∀ (xs ys : List Char), (∀ x ∈ xs, p x = true) →
      List.dropWhile p (xs ++ ys) = List.dropWhile p ys := by
  intro xs
  induction xs with
  | nil => intro ys _; rfl
  | cons x xs ih =>
    intro ys hall
    have hx := hall x (List.mem_cons_self _ _)
    simp only [List.cons_append, List.dropWhile_cons, hx, if_true]
    exact ih ys fun a ha => hall a (List.mem_cons_of_mem _ ha)

/-- A rendered argument starts with a non-whitespace character. -/
theorem renderArg_shape (a : SubmitArg) :
    ∃ c cs, renderArg a = c :: cs ∧ Char.isWhitespace c = false := by
  cases a with
  | astr s => exact ⟨squote, s ++ [squote], rfl, by decide⟩
  | anull => exact ⟨'N', ['o', 'n', 'e'], rfl, by decide⟩

/-- An attribute with no occurrence of the call pattern fails the search. -/
theorem findAfterCall_eq_none :
    ∀ l : List Char, ¬ callPattern <:+: l → findAfterCall l = none := by
  intro l
  induction l with
  | nil => intro _; decide
  | cons c cs ih =>
    intro h
    have hp : callPattern.isPrefixOf (c :: cs) = false := by
      cases hb : callPattern.isPrefixOf (c :: cs)
      · rfl
      · exact absurd (List.isPrefixOf_iff_prefix.mp hb).isInfix h
    simp only [findAfterCall, hp, Bool.false_eq_true, if_false]
    exact ih fun hc => h (List.infix_cons hc)

/-- The search strips everything up to and including the first occurrence of
the call pattern when no occurrence starts earlier. -/
theorem findAfterCall_at_call :
    ∀ (pre rest : List Char), ¬ callPattern <:+: (pre ++ callPattern.take 14) →
      findAfterCall (pre ++ (callPattern ++ rest)) = some rest := by
  intro pre
  induction pre with
  | nil =>
    intro rest _
    have hp : callPattern.isPrefixOf (callPattern ++ rest) = true :=
      List.isPrefixOf_iff_prefix.mpr (List.prefix_append _ _)
    simp [findAfterCall, hp, List.drop_left]
  | cons c pre ih =>
    intro rest h
    have hlen15 : callPattern.length = 15 := by decide
    have hlen14 : (callPattern.take 14).length = 14 := by decide
    have hA : callPattern.isPrefixOf (c :: (pre ++ (callPattern ++ rest))) = false := by
      cases hb : callPattern.isPrefixOf (c :: (pre ++ (callPattern ++ rest)))
      · rfl
      · exfalso
        have hpref := List.isPrefixOf_iff_prefix.mp hb
        have hcp : callPattern = callPattern.take 14 ++ callPattern.drop 14 :=
          (List.take_append_drop 14 callPattern).symm
        have hsplit : c :: (pre ++ (callPattern ++ rest)) =
            (c :: (pre ++ callPattern.take 14)) ++ (callPattern.drop 14 ++ rest) := by
          conv_lhs => rw [hcp]
          simp only [List.cons_append, List.append_assoc, List.cons.injEq, true_and]
        have htake := List.prefix_iff_eq_take.mp hpref
        rw [hsplit, List.take_append_eq_append_take] at htake
        have hz : callPattern.length - (c :: (pre ++ callPattern.take 14)).length = 0 := by
          simp only [List.length_cons, List.length_append, hlen14, hlen15]
          omega
        rw [hz, List.take_zero, List.append_nil] at htake
        have hpA : callPattern <+: (c :: (pre ++ callPattern.take 14)) :=
          List.prefix_iff_eq_take.mpr htake
        exact h hpA.isInfix
    simp only [List.cons_append, findAfterCall, hA, Bool.false_eq_true, if_false]
    exact ih rest fun hc => h (List.infix_cons hc)

/-- The greedy close keeps everything before the final parenthesis when the
tail after it holds no parenthesis, also when the body itself holds some. -/
theorem upToLastClose_append (body suf : List Char) (h : ')' ∉ suf) :
    upToLastClose (body ++ ')' :: suf) = some body := by
  have hall : ∀ x ∈ suf.reverse, (x != ')') = true := by
    intro x hx
    have hmem : x ∈ suf := List.mem_reverse.mp hx
    have hne : x ≠ ')' := fun he => h (he ▸ hmem)
    simpa [bne_iff_ne] using hne
  have hrev : (body ++ ')' :: suf).reverse = suf.reverse ++ ')' :: body.reverse := by
    simp [List.reverse_append]
  have hdw : List.dropWhile (fun c => c != ')') (suf.reverse ++ ')' :: body.reverse) =
      ')' :: body.reverse := by
    rw [dropWhile_append_all _ _ _ hall]
    simp [List.dropWhile_cons]
  simp [upToLastClose, hrev, hdw, List.reverse_reverse]

/-- The quoted-string scanner recovers a quote- and backslash-free body. -/
theorem parseStringBody_append (rest : List Char) :
    ∀ s : List Char, (∀ ch ∈ s, ch ≠ squote ∧ ch ≠ bslash) →
      parseStringBody squote (s ++ squote :: rest) = some (s, rest) := by
  intro s
  induction s with
  | nil =>
    intro _
    rw [List.nil_append, parseStringBody.eq_def]
    dsimp only
    rw [if_pos rfl]
  | cons ch s ih =>
    intro hall
    obtain ⟨hq, hb⟩ := hall ch (List.mem_cons_self _ _)
    rw [List.cons_append, parseStringBody.eq_def]
    dsimp only
    rw [if_neg hq, if_neg hb, ih fun a ha => hall a (List.mem_cons_of_mem _ ha)]

/-- The literal scanner recovers one rendered argument after any leading
whitespace, returning the remaining input unchanged. -/
theorem parseLit_render (a : SubmitArg) (ws rest : List Char)
    (hwf : wfArg a = true) (hws : ∀ ch ∈ ws, Char.isWhitespace ch = true) :
    parseLit (ws ++ (renderArg a ++ rest)) = some (litOf a, rest) := by
  cases a with
  | astr s =>
    have hs : ∀ ch ∈ s, ch ≠ squote ∧ ch ≠ bslash := by
      intro ch hch
      have hc : (ch != squote && ch != bslash) = true := List.all_eq_true.mp hwf ch hch
      simp only [Bool.and_eq_true, bne_iff_ne] at hc
      exact hc
    have hshape : renderArg (SubmitArg.astr s) ++ rest =
        squote :: (s ++ squote :: rest) := by
      simp [renderArg]
    have hdw : (ws ++ (renderArg (SubmitArg.astr s) ++ rest)).dropWhile
        Char.isWhitespace = squote :: (s ++ squote :: rest) := by
      rw [dropWhile_append_all _ _ _ hws, hshape]
      simp [List.dropWhile_cons, show Char.isWhitespace squote = false from by decide]
    simp only [parseLit, hdw]
    rw [if_pos trivial, parseStringBody_append rest s hs]
    rfl
  | anull =>
    have hshape : renderArg SubmitArg.anull ++ rest = 'N' :: 'o' :: 'n' :: 'e' :: rest := rfl
    have hdw : (ws ++ (renderArg SubmitArg.anull ++ rest)).dropWhile
        Char.isWhitespace = 'N' :: 'o' :: 'n' :: 'e' :: rest := by
      rw [dropWhile_append_all _ _ _ hws, hshape]
      simp [List.dropWhile_cons, show Char.isWhitespace 'N' = false from by decide]
    have hsn : startsNone ('N' :: 'o' :: 'n' :: 'e' :: rest) = true := by
      simp [startsNone, List.isPrefixOf]
    simp only [parseLit, hdw]
    rw [if_neg (show ¬ ('N' : Char) = squote by decide),
        if_neg (show ¬ ('N' : Char) = dquote by decide), if_pos hsn]
    rfl

/-- The literal-list scanner recovers a rendered argument list after any
leading whitespace run, for any sufficient fuel. -/
theorem parseItems_render :
    ∀ (args : List SubmitArg) (ws : List Char) (fuel : Nat),
      args.all wfArg = true →
      (∀ ch ∈ ws, Char.isWhitespace ch = true) →
      (ws ++ renderBody args).length < fuel →
      parseItems fuel (ws ++ renderBody args) = some (args.map litOf) := by
  intro args
  induction args with
  | nil =>
    intro ws fuel _ hws hlen
    cases fuel with
    | zero => exact absurd hlen (Nat.not_lt_zero _)
    | succ f =>
      have hdw : (ws ++ renderBody []).dropWhile Char.isWhitespace = [] := by
        have h0 := dropWhile_append_all Char.isWhitespace ws [] hws
        simpa [renderBody] using h0
      rw [parseItems.eq_def]
      dsimp only
      simp [hdw]
  | cons a args ih =>
    intro ws fuel hwf hws hlen
    have hwfc := hwf
    rw [List.all_cons, Bool.and_eq_true] at hwfc
    obtain ⟨hwa, hwrest⟩ := hwfc
    cases fuel with
    | zero => exact absurd hlen (Nat.not_lt_zero _)
    | succ f =>
      obtain ⟨c0, cs0, hra, hc0⟩ := renderArg_shape a
      cases args with
      | nil =>
        have hcond : ((ws ++ renderBody [a]).dropWhile Char.isWhitespace).isEmpty =
            false := by
          rw [show renderBody [a] = renderArg a from rfl,
            dropWhile_append_all _ _ _ hws, hra]
          simp [List.dropWhile_cons, hc0]
        have hpl : parseLit (ws ++ renderBody [a]) = some (litOf a, []) := by
          rw [show renderBody [a] = renderArg a from rfl,
            show ws ++ renderArg a = ws ++ (renderArg a ++ []) from by simp]
          exact parseLit_render a ws [] hwa hws
        rw [parseItems.eq_def]
        dsimp only
        simp [hcond, hpl]
      | cons b args2 =>
        have hbody : renderBody (a :: b :: args2) =
            renderArg a ++ (',' :: nlChar :: renderBody (b :: args2)) := rfl
        have hpl : parseLit (ws ++ renderBody (a :: b :: args2)) =
            some (litOf a, ',' :: nlChar :: renderBody (b :: args2)) := by
          rw [hbody]
          exact parseLit_render a ws _ hwa hws
        have hcond : ((ws ++ renderBody (a :: b :: args2)).dropWhile
            Char.isWhitespace).isEmpty = false := by
          rw [hbody, dropWhile_append_all _ _ _ hws, hra]
          simp [List.dropWhile_cons, hc0]
        have hlen2 : ([nlChar] ++ renderBody (b :: args2)).length < f := by
          have h1 : 1 ≤ (renderArg a).length := by rw [hra]; simp
          rw [hbody] at hlen
          simp only [List.length_append, List.length_cons, List.length_nil] at hlen ⊢
          omega
        have hws2 : ∀ ch ∈ [nlChar], Char.isWhitespace ch = true := by
          intro ch hch
          rw [List.mem_singleton.mp hch]
          decide
        have hrec := ih [nlChar] f hwrest hws2 hlen2
        rw [parseItems.eq_def]
        dsimp only
        simp only [hcond, Bool.false_eq_true, if_false, hpl]
        rw [show (',' :: nlChar :: renderBody (b :: args2)).dropWhile
            Char.isWhitespace = ',' :: nlChar :: renderBody (b :: args2) from by
          simp [List.dropWhile_cons, show Char.isWhitespace ',' = false from by decide]]
        dsimp only
        rw [if_pos rfl,
          show nlChar :: renderBody (b :: args2) = [nlChar] ++ renderBody (b :: args2)
            from rfl,
          hrec]
        rfl

/-- C4: for every attribute string around a well-formed rendered
`submitFunction` argument list — the list spanning several lines, quoted
arguments free to embed commas and parentheses, `None` allowed as an
argument — the parser returns exactly those arguments in their original
order as strings with `None` normalized to the empty string; and every
attribute string holding no occurrence of the call pattern fails with a
parse failure (the total model returns `none`, mirroring the `None` the
code returns after catching `ValueError`/`SyntaxError`, so no unrelated
exception escapes). -/
theorem parse_submit_function_args_spec :
    (∀ (pre suf : List Char) (args : List SubmitArg),
      args.all wfArg = true →
      ¬ callPattern <:+: (pre ++ callPattern.take 14) →
      ')' ∉ suf →
      parse_submit_function_args (renderAttr pre args suf) =
        some (args.map argValue)) ∧
    (∀ attr : List Char, ¬ callPattern <:+: attr →
      parse_submit_function_args attr = none) := by
  constructor
  · intro pre suf args hwf hpre hsuf
    have hfind : findAfterCall (renderAttr pre args suf) =
        some (renderBody args ++ ')' :: suf) := by
      have hsh : renderAttr pre args suf =
          pre ++ (callPattern ++ (renderBody args ++ ')' :: suf)) := by
        simp [renderAttr, List.append_assoc]
      rw [hsh]
      exact findAfterCall_at_call pre _ hpre
    have hclose : upToLastClose (renderBody args ++ ')' :: suf) =
        some (renderBody args) := upToLastClose_append _ _ hsuf
    have hitems : parseItems ((renderBody args).length + 1) (renderBody args) =
        some (args.map litOf) := by
      have h0 := parseItems_render args [] ((renderBody args).length + 1) hwf
        (by intro ch hch; cases hch) (by simp)
      simpa using h0
    have hne : (renderAttr pre args suf).isEmpty = false := by
      have : renderAttr pre args suf ≠ [] := by
        simp [renderAttr]
      simpa [List.isEmpty_iff] using this
    rw [parse_submit_function_args, hne]
    simp only [Bool.false_eq_true, if_false, hfind, hclose, hitems]
    rw [List.map_map]
    exact congrArg some (List.map_congr_left fun a _ => by cases a <;> rfl)
  · intro attr h
    by_cases he : attr.isEmpty = true
    · simp [parse_submit_function_args, he]
    · have hf : findAfterCall attr = none := findAfterCall_eq_none attr h
      simp [parse_submit_function_args, he, hf]

/-- Witness for C4: a realistic attribute with a JavaScript prefix, fourteen
arguments spread over several lines, one argument embedding a comma, a
trailing `None`, and a statement suffix, parses to exactly those fourteen
strings; a string without the call pattern fails. -/
theorem parse_submit_function_args_spec_witness :
    parse_submit_function_args (renderAttr "javascript:".toList
      [SubmitArg.astr "0001".toList, SubmitArg.astr "123456".toList,
       SubmitArg.astr "15/12/2025".toList, SubmitArg.astr "PAGAMENTO, PARCELA".toList,
       SubmitArg.astr "G1".toList, SubmitArg.astr "Q1".toList,
       SubmitArg.astr "M1".toList, SubmitArg.astr "1.234,56".toList,
       SubmitArg.astr "PAG".toList, SubmitArg.astr "N".toList,
       SubmitArg.astr "MSG".toList, SubmitArg.astr "N".toList,
       SubmitArg.astr "S".toList, SubmitArg.anull] "; return false;".toList) =
      some ["0001", "123456", "15/12/2025", "PAGAMENTO, PARCELA", "G1", "Q1",
            "M1", "1.234,56", "PAG", "N", "MSG", "N", "S", ""] ∧
    parse_submit_function_args "no call here".toList = none := by
  constructor
  · exact (parse_submit_function_args_spec.1 "javascript:".toList
      "; return false;".toList _ (by decide) (by decide) (by decide)).trans (by decide)
  · exact parse_submit_function_args_spec.2 _ (by decide)
